import Mathlib

/-!
Shallow embedding of the password-vault repository core, checked against its
natural-language specification.

The embedded functions follow the TypeScript source:
  - src/lib/crypto.ts : encrypt, decrypt, validateMasterPassword
  - src/components/MasterPasswordPrompt.tsx : the strength gate of handleSubmit
  - src/app/api/vault/[id]/route.ts : GET/PUT/DELETE vault handlers and the
    master-password GET/POST/PUT handlers
  - the vault export/import utilities : parseImportedVault

External library primitives (CryptoJS AES, bcrypt, JSON.parse) are not code of
this repository; they are modelled as black boxes satisfying the input/output
contracts the specification states for them (an AESModel or BcryptModel
structure carries the contract; JSON.parse is abstracted by passing the parsed
value). Concrete executable instances of those structures are provided so the
theorems can be evaluated on concrete inputs.
-/

/-! ## Field cipher (src/lib/crypto.ts) -/

/-- Black-box model of the CryptoJS AES passphrase cipher as the specification
describes it: an authenticated symmetric cipher.  The nondeterministic salt is
elided (the contract only constrains decryption results).  The field dec models
the composition of AES decryption and UTF-8 decoding: none when decoding
throws, some t when it yields the string t. -/
structure AESModel where
  enc : String → String → String
  dec : String → String → Option String
  enc_ne : ∀ s k, enc s k ≠ ""
  dec_enc : ∀ s k, dec (enc s k) k = some s
  dec_wrong : ∀ s k1 k2, k1 ≠ k2 →
    dec (enc s k1) k2 = none ∨ dec (enc s k1) k2 = some ""

/-- Error raised by the decrypt function of src/lib/crypto.ts.  Both the
explicit empty-plaintext throw and a decoding exception are caught and rethrown
as the single wrong-master-password error. -/
inductive CryptoError where
  | decryptFailed
deriving DecidableEq

/-- encrypt from src/lib/crypto.ts lines 42-51: an empty (falsy) plaintext is
returned unchanged, otherwise the AES ciphertext string. -/
def encrypt (P : AESModel) (plaintext key : String) : String :=
  if plaintext = "" then "" else P.enc plaintext key

/-- decrypt from src/lib/crypto.ts lines 59-74: an empty (falsy) ciphertext is
returned unchanged; otherwise AES-decrypt and UTF-8-decode, throwing when the
decode fails or yields an empty (falsy) plaintext. -/
def decrypt (P : AESModel) (ciphertext key : String) : Except CryptoError String :=
  if ciphertext = "" then Except.ok ""
  else
    match P.dec ciphertext key with
    | none => Except.error CryptoError.decryptFailed
    | some plaintext =>
      if plaintext = "" then Except.error CryptoError.decryptFailed
      else Except.ok plaintext

/-! A concrete executable instance of AESModel, used to evaluate the theorems
at concrete inputs.  Ciphertext layout: the key length in unary, a colon, the
key, then the payload; decryption checks the embedded key against the supplied
key. -/

/-- Read a unary length header: count leading L characters up to a colon. -/
def splitUnary : List Char → Option (Nat × List Char)
  | [] => none
  | c :: cs =>
    if c = ':' then some (0, cs)
    else if c = 'L' then
      match splitUnary cs with
      | some (n, r) => some (n + 1, r)
      | none => none
    else none

/-- Toy cipher encryption: unary key length, a colon, the key, the payload. -/
def toyEnc (s k : String) : String :=
  ⟨List.replicate k.data.length 'L' ++ ':' :: (k.data ++ s.data)⟩

/-- Toy cipher decryption: parse the header, check the embedded key equals the
supplied key, return the payload. -/
def toyDec (c k : String) : Option String :=
  match splitUnary c.data with
  | none => none
  | some (n, r) =>
    if n = k.data.length ∧ r.take n = k.data then some ⟨r.drop n⟩ else none

lemma string_ext {a b : String} (h : a.data = b.data) : a = b :=
  congrArg String.mk h

lemma splitUnary_replicate (n : Nat) (rest : List Char) :
    splitUnary (List.replicate n 'L' ++ ':' :: rest) = some (n, rest) := by
  induction n with
  | zero => rfl
  | succ m ih =>
    rw [List.replicate_succ, List.cons_append]
    simp [splitUnary, ih]

lemma toyDec_toyEnc (s k : String) : toyDec (toyEnc s k) k = some s := by
  show toyDec ⟨List.replicate k.data.length 'L' ++ ':' :: (k.data ++ s.data)⟩ k = some s
  unfold toyDec
  rw [show (String.mk (List.replicate k.data.length 'L' ++ ':' :: (k.data ++ s.data))).data
      = List.replicate k.data.length 'L' ++ ':' :: (k.data ++ s.data) from rfl]
  rw [splitUnary_replicate]
  show (if k.data.length = k.data.length ∧ (k.data ++ s.data).take k.data.length = k.data
        then some ⟨(k.data ++ s.data).drop k.data.length⟩ else none) = some s
  rw [if_pos ⟨rfl, List.take_left k.data s.data⟩]
  rw [List.drop_left k.data s.data]

lemma toyDec_wrong (s k1 k2 : String) (h : k1 ≠ k2) :
    toyDec (toyEnc s k1) k2 = none := by
  show toyDec ⟨List.replicate k1.data.length 'L' ++ ':' :: (k1.data ++ s.data)⟩ k2 = none
  unfold toyDec
  rw [show (String.mk (List.replicate k1.data.length 'L' ++ ':' :: (k1.data ++ s.data))).data
      = List.replicate k1.data.length 'L' ++ ':' :: (k1.data ++ s.data) from rfl]
  rw [splitUnary_replicate]
  show (if k1.data.length = k2.data.length ∧ (k1.data ++ s.data).take k1.data.length = k2.data
        then some (String.mk ((k1.data ++ s.data).drop k1.data.length)) else none) = none
  rw [if_neg]
  rintro ⟨hlen, htake⟩
  rw [List.take_left k1.data s.data] at htake
  exact h (string_ext htake)

lemma toyEnc_ne (s k : String) : toyEnc s k ≠ "" := by
  intro h
  have hd : List.replicate k.data.length 'L' ++ ':' :: (k.data ++ s.data) = ([] : List Char) :=
    congrArg String.data h
  simp at hd

/-- The concrete cipher instance. -/
def toyAES : AESModel where
  enc := toyEnc
  dec := toyDec
  enc_ne := toyEnc_ne
  dec_enc := toyDec_toyEnc
  dec_wrong := fun s k1 k2 h => Or.inl (toyDec_wrong s k1 k2 h)

/-! ## Master-password strength policy (src/lib/crypto.ts lines 159-197) -/

/-- The four strength levels returned by validateMasterPassword. -/
inductive Strength where
  | weak
  | medium
  | strong
  | veryStrong
deriving DecidableEq

/-- The result shape of validateMasterPassword. -/
structure PasswordValidation where
  isValid : Bool
  message : Option String
  strength : Strength
deriving DecidableEq

/-- The regex test /[a-z]/ on a string. -/
def hasLower (s : String) : Bool := s.data.any (fun c => decide ('a' ≤ c ∧ c ≤ 'z'))

/-- The regex test /[A-Z]/ on a string. -/
def hasUpper (s : String) : Bool := s.data.any (fun c => decide ('A' ≤ c ∧ c ≤ 'Z'))

/-- The regex test /\d/ on a string. -/
def hasDigit (s : String) : Bool := s.data.any (fun c => decide ('0' ≤ c ∧ c ≤ '9'))

/-- The regex test /[^a-zA-Z0-9]/ on a string. -/
def hasSpecial (s : String) : Bool :=
  s.data.any (fun c =>
    decide (¬ (('a' ≤ c ∧ c ≤ 'z') ∨ ('A' ≤ c ∧ c ≤ 'Z') ∨ ('0' ≤ c ∧ c ≤ '9'))))

/-- The score accumulated by validateMasterPassword: two length thresholds and
three character-class tests. -/
def passwordScore (p : String) : Nat :=
  (if 12 ≤ p.length then 1 else 0) +
  (if 16 ≤ p.length then 1 else 0) +
  (if hasLower p && hasUpper p then 1 else 0) +
  (if hasDigit p then 1 else 0) +
  (if hasSpecial p then 1 else 0)

/-- The score-to-strength ladder of validateMasterPassword. -/
def strengthOfScore (score : Nat) : Strength :=
  if score ≤ 1 then Strength.weak
  else if score = 2 then Strength.medium
  else if score = 3 ∨ score = 4 then Strength.strong
  else Strength.veryStrong

/-- validateMasterPassword from src/lib/crypto.ts lines 159-197. -/
def validateMasterPassword (password : String) : PasswordValidation :=
  if password.length < 8 then
    { isValid := false
      message := some "Master password must be at least 8 characters"
      strength := Strength.weak }
  else
    let strength := strengthOfScore (passwordScore password)
    if strength = Strength.weak then
      { isValid := true
        message := some "Consider using a stronger master password"
        strength := Strength.weak }
    else
      { isValid := true, message := none, strength := strength }

/-- Outcome of the client-side strength gate: either an error message is set
and submission stops, or the flow proceeds to the set/verify network call. -/
inductive SubmitOutcome where
  | blocked (msg : String)
  | proceed
deriving DecidableEq

/-- JavaScript string-or fallback: m or fb is fb when m is undefined or empty. -/
def jsOrStr (m : Option String) (fb : String) : String :=
  match m with
  | none => fb
  | some s => if s = "" then fb else s

/-- The strength gate at the top of handleSubmit in
src/components/MasterPasswordPrompt.tsx lines 54-72: stop with the validation
message when the password is invalid, stop again when its strength is weak,
otherwise proceed to the set/verify request. -/
def handleSubmitGate (masterPassword : String) : SubmitOutcome :=
  let validation := validateMasterPassword masterPassword
  if validation.isValid = false then
    SubmitOutcome.blocked (jsOrStr validation.message "Invalid master password")
  else if validation.strength = Strength.weak then
    SubmitOutcome.blocked (jsOrStr validation.message "Master password is too weak")
  else
    SubmitOutcome.proceed

/-! ## Master-secret gate (src/app/api/vault/[id]/route.ts, master-password
handlers) -/

/-- Black-box model of bcrypt as the specification describes it: an
irreversible password hash.  The salt is elided (the contract only constrains
comparison results): compare p h succeeds exactly when h was produced by
hashing p. -/
structure BcryptModel where
  hash : String → String
  compare : String → String → Bool
  compare_hash : ∀ p s, compare p (hash s) = true ↔ p = s

/-- Concrete executable bcrypt instance for evaluating theorems: the hash is
the secret itself and comparison is string equality. -/
def toyBcrypt : BcryptModel where
  hash := fun s => s
  compare := fun p h => p == h
  compare_hash := fun _ _ => beq_iff_eq

/-- The per-user persistent state the master-password handlers touch: the
masterPasswordHash field of the User document, absent until first set. -/
structure UserState where
  masterPasswordHash : Option String
deriving DecidableEq

/-- The action discriminator of the master-password POST body. -/
inductive MPAction where
  | set
  | verify
  | other
deriving DecidableEq

/-- Responses of the master-password POST handler (after authentication). -/
inductive MPPostResult where
  | badRequest (msg : String)
  | setOk
  | verifyResult (valid : Bool)
deriving DecidableEq

/-- The master-password POST handler (route.ts lines 253-336), after the
session and user lookups: reject an empty (falsy) password; action set stores
a hash only when none exists; action verify compares against the stored hash;
any other action is a bad request. -/
def masterPasswordPost (B : BcryptModel) (u : UserState) (masterPassword : String)
    (action : MPAction) : MPPostResult × UserState :=
  if masterPassword = "" then
    (MPPostResult.badRequest "Master password is required", u)
  else
    match action with
    | MPAction.set =>
      match u.masterPasswordHash with
      | some _ => (MPPostResult.badRequest "Master password already set", u)
      | none =>
        (MPPostResult.setOk, { masterPasswordHash := some (B.hash masterPassword) })
    | MPAction.verify =>
      match u.masterPasswordHash with
      | none => (MPPostResult.badRequest "Master password not set yet", u)
      | some h => (MPPostResult.verifyResult (B.compare masterPassword h), u)
    | MPAction.other =>
      (MPPostResult.badRequest "Invalid action. Use \x22set\x22 or \x22verify\x22", u)

/-- Responses of the master-password PUT (change) handler. -/
inductive MPPutResult where
  | badRequest (msg : String)
  | wrongOld
  | changed
deriving DecidableEq

/-- The master-password PUT handler (route.ts lines 341-397), after the
session and user lookups: both passwords must be non-empty (truthy), a hash
must already exist, the old password must verify, and then the stored hash is
replaced by a hash of the new password. -/
def masterPasswordPut (B : BcryptModel) (u : UserState)
    (oldMasterPassword newMasterPassword : String) : MPPutResult × UserState :=
  if oldMasterPassword = "" ∨ newMasterPassword = "" then
    (MPPutResult.badRequest "Both old and new master passwords are required", u)
  else
    match u.masterPasswordHash with
    | none => (MPPutResult.badRequest "No master password set", u)
    | some h =>
      if B.compare oldMasterPassword h then
        (MPPutResult.changed, { masterPasswordHash := some (B.hash newMasterPassword) })
      else
        (MPPutResult.wrongOld, u)

/-! ## Vault record store (src/app/api/vault/[id]/route.ts, vault handlers) -/

/-- A stored vault item document: owner id plus the five already-encrypted
field strings.  The Mongo object id is the key of the store map; the
timestamps play no role in the verified claims and are elided. -/
structure StoredItem where
  userId : String
  title : String
  username : String
  password : String
  url : String
  notes : String
deriving DecidableEq

/-- The VaultItem collection: at most one document per object id. -/
def VaultStore : Type := String → Option StoredItem

/-- VaultItem.findOne with the compound filter on object id and owner id, as
every vault handler issues it. -/
def findOneItem (st : VaultStore) (id uid : String) : Option StoredItem :=
  match st id with
  | none => none
  | some it => if it.userId = uid then some it else none

/-- Responses of the vault GET handler. -/
inductive VaultGetResult where
  | notFound
  | found (it : StoredItem)
deriving DecidableEq

/-- GET /api/vault/:id (route.ts lines 10-36), after authentication: compound
findOne, 404 when it misses. -/
def vaultGet (st : VaultStore) (uid id : String) : VaultGetResult :=
  match findOneItem st id uid with
  | none => VaultGetResult.notFound
  | some it => VaultGetResult.found it

/-- The request body of the vault PUT handler; absent fields are none. -/
structure UpdateBody where
  title : Option String
  username : Option String
  password : Option String
  url : Option String
  notes : Option String

/-- JavaScript v or the empty string: undefined and the empty string both map
to the empty string. -/
def jsOrEmpty (v : Option String) : String :=
  match v with
  | none => ""
  | some s => s

/-- Responses of the vault PUT handler. -/
inductive VaultPutResult where
  | titleRequired
  | notFound
  | updated (it : StoredItem)
deriving DecidableEq

/-- PUT /api/vault/:id (route.ts lines 42-84), after authentication: 400 when
the title is falsy, compound findOneAndUpdate replacing the five fields, 404
when it misses. -/
def vaultPut (st : VaultStore) (uid id : String) (body : UpdateBody) :
    VaultPutResult × VaultStore :=
  if jsOrEmpty body.title = "" then (VaultPutResult.titleRequired, st)
  else
    match findOneItem st id uid with
    | none => (VaultPutResult.notFound, st)
    | some old =>
      let newIt : StoredItem :=
        { userId := old.userId
          title := jsOrEmpty body.title
          username := jsOrEmpty body.username
          password := jsOrEmpty body.password
          url := jsOrEmpty body.url
          notes := jsOrEmpty body.notes }
      (VaultPutResult.updated newIt, fun j => if j = id then some newIt else st j)

/-- Responses of the vault DELETE handler. -/
inductive VaultDeleteResult where
  | notFound
  | deleted
deriving DecidableEq

/-- DELETE /api/vault/:id (route.ts lines 90-116), after authentication:
compound findOneAndDelete, 404 when it misses. -/
def vaultDelete (st : VaultStore) (uid id : String) : VaultDeleteResult × VaultStore :=
  match findOneItem st id uid with
  | none => (VaultDeleteResult.notFound, st)
  | some _ => (VaultDeleteResult.deleted, fun j => if j = id then none else st j)

/-- The master-password PUT handler viewed over the whole database state (the
User document together with the VaultItem collection).  The source handler
(route.ts lines 341-397) imports and touches only the User model, so its
action on the combined state leaves the vault collection component untouched. -/
def masterPasswordPutSys (B : BcryptModel) (u : UserState) (vs : VaultStore)
    (oldMasterPassword newMasterPassword : String) :
    MPPutResult × UserState × VaultStore :=
  ((masterPasswordPut B u oldMasterPassword newMasterPassword).1,
   (masterPasswordPut B u oldMasterPassword newMasterPassword).2, vs)

/-! ## Export/import codec (parseImportedVault) -/

/-- JSON values as JSON.parse can produce them.  Numbers are modelled as
integers; only their truthiness (zero versus nonzero) matters to the code
under verification. -/
inductive JSVal where
  | null
  | bool (b : Bool)
  | num (n : Int)
  | str (s : String)
  | arr (xs : List JSVal)
  | obj (fields : List (String × JSVal))

/-- JavaScript truthiness of a JSON value. -/
def truthy : JSVal → Bool
  | JSVal.null => false
  | JSVal.bool b => b
  | JSVal.num n => decide (n ≠ 0)
  | JSVal.str s => decide (s ≠ "")
  | JSVal.arr _ => true
  | JSVal.obj _ => true

/-- Result of a JavaScript member access v.k: a TypeError on null, undefined
on primitives, arrays and absent keys, the value on present keys. -/
inductive AccessResult where
  | threw
  | undef
  | val (v : JSVal)

/-- JavaScript member access data.k for the keys the import parser reads. -/
def member : JSVal → String → AccessResult
  | JSVal.null, _ => AccessResult.threw
  | JSVal.obj fs, k =>
    match fs.lookup k with
    | some v => AccessResult.val v
    | none => AccessResult.undef
  | _, _ => AccessResult.undef

/-- Array.isArray. -/
def isArray : JSVal → Bool
  | JSVal.arr _ => true
  | _ => false

/-- Result of parseImportedVault: either the malformed-bundle failure or the
parsed data returned unchanged. -/
inductive ImportParseResult where
  | malformed
  | bundle (data : JSVal)

/-- parseImportedVault from the vault export/import utilities (lines 60-73).
JSON.parse is the external primitive: its outcome is the argument, none when
parsing threw.  The code then rejects when data.version is falsy (throwing on
null data), when data.items is falsy, or when data.items is not an array, and
otherwise returns the parsed data itself unchanged. -/
def parseImportedVault (parsed : Option JSVal) : ImportParseResult :=
  match parsed with
  | none => ImportParseResult.malformed
  | some data =>
    match member data "version" with
    | AccessResult.threw => ImportParseResult.malformed
    | AccessResult.undef => ImportParseResult.malformed
    | AccessResult.val ver =>
      if truthy ver = false then ImportParseResult.malformed
      else
        match member data "items" with
        | AccessResult.threw => ImportParseResult.malformed
        | AccessResult.undef => ImportParseResult.malformed
        | AccessResult.val items =>
          if truthy items = false then ImportParseResult.malformed
          else if isArray items then ImportParseResult.bundle data
          else ImportParseResult.malformed

/-- Modelled from the spec (amended): the acceptance condition of the import
parser on a parsed JSON value — the version member is present and truthy and
the items member is present and an array. -/
def importAccepted (data : JSVal) : Bool :=
  (match member data "version" with
   | AccessResult.val ver => truthy ver
   | _ => false) &&
  (match member data "items" with
   | AccessResult.val items => isArray items
   | _ => false)

/-! ## Claim theorems: field cipher -/

/-- C1: for every cipher satisfying the library contract, every non-empty
plaintext s and every key k, decrypting the encryption of s under the same key
k returns s. -/
theorem c1_encrypt_decrypt_roundtrip (P : AESModel) (s k : String) (hs : s ≠ "") :
    decrypt P (encrypt P s k) k = Except.ok s := by
  unfold encrypt decrypt
  rw [if_neg hs, if_neg (P.enc_ne s k), P.dec_enc]
  exact if_neg hs

/-- C1 witness: the round-trip theorem applied at the concrete cipher with
plaintext pw and key key. -/
theorem c1_encrypt_decrypt_roundtrip_witness :
    decrypt toyAES (encrypt toyAES "pw" "key") "key" = Except.ok "pw" :=
  c1_encrypt_decrypt_roundtrip toyAES "pw" "key" (by decide)

/-- C2: for every cipher satisfying the library contract, every non-empty
plaintext s and distinct keys k1 and k2, decrypting the encryption of s under
k1 with k2 throws the wrong-key/corrupt-data error. -/
theorem c2_wrong_key_rejected (P : AESModel) (s k1 k2 : String)
    (hs : s ≠ "") (hk : k1 ≠ k2) :
    decrypt P (encrypt P s k1) k2 = Except.error CryptoError.decryptFailed := by
  unfold encrypt decrypt
  rw [if_neg hs, if_neg (P.enc_ne s k1)]
  rcases P.dec_wrong s k1 k2 hk with h | h
  · rw [h]
  · rw [h]
    exact if_pos rfl

/-- C2 witness: the wrong-key theorem applied at the concrete cipher with
plaintext x and keys a and b. -/
theorem c2_wrong_key_rejected_witness :
    decrypt toyAES (encrypt toyAES "x" "a") "b" = Except.error CryptoError.decryptFailed :=
  c2_wrong_key_rejected toyAES "x" "a" "b" (by decide) (by decide)

/-- C8: for every cipher and every key k, encrypting the empty string returns
the empty string and decrypting the empty string returns the empty string,
with no error in either case. -/
theorem c8_empty_identity (P : AESModel) (k : String) :
    encrypt P "" k = "" ∧ decrypt P "" k = Except.ok "" :=
  ⟨if_pos rfl, if_pos rfl⟩

/-- C10: decrypt never returns the empty string on a non-empty input — it
returns the empty string exactly when the ciphertext is empty — and an empty
decoded plaintext on a non-empty input is converted into the
decryption-failure error. -/
theorem c10_empty_result_only_for_empty_input (P : AESModel) (c k : String) :
    (decrypt P c k = Except.ok "" ↔ c = "") ∧
    (c ≠ "" → P.dec c k = some "" →
      decrypt P c k = Except.error CryptoError.decryptFailed) := by
  constructor
  · constructor
    · intro h
      by_contra hc
      unfold decrypt at h
      rw [if_neg hc] at h
      cases hd : P.dec c k with
      | none =>
        rw [hd] at h
        exact Except.noConfusion h
      | some t =>
        rw [hd] at h
        have h' : (if t = "" then (Except.error CryptoError.decryptFailed : Except CryptoError String)
            else Except.ok t) = Except.ok "" := h
        by_cases ht : t = ""
        · rw [if_pos ht] at h'
          exact Except.noConfusion h'
        · rw [if_neg ht] at h'
          injection h' with h''
          exact ht h''
    · intro h
      subst h
      exact if_pos rfl
  · intro hc hd
    unfold decrypt
    rw [if_neg hc, hd]
    exact if_pos rfl

/-- C10 witness: the theorem applied at the concrete cipher and the concrete
ciphertext L:k, whose embedded payload under key k is empty. -/
theorem c10_empty_result_only_for_empty_input_witness :
    decrypt toyAES "L:k" "k" = Except.error CryptoError.decryptFailed :=
  (c10_empty_result_only_for_empty_input toyAES "L:k" "k").2 (by decide) (by decide)

/-! ## Claim theorems: secret-strength policy -/

lemma validateMasterPassword_isValid_iff (p : String) :
    (validateMasterPassword p).isValid = true ↔ 8 ≤ p.length := by
  unfold validateMasterPassword
  by_cases hl : p.length < 8
  · rw [if_pos hl]
    constructor
    · intro h
      exact Bool.noConfusion h
    · intro h
      omega
  · rw [if_neg hl]
    constructor
    · intro _
      omega
    · intro _
      by_cases hw : strengthOfScore (passwordScore p) = Strength.weak
      · simp only [hw, if_pos]
      · simp only [if_neg hw]

lemma handleSubmitGate_proceed_iff (p : String) :
    handleSubmitGate p = SubmitOutcome.proceed ↔
      ((validateMasterPassword p).isValid = true ∧
       (validateMasterPassword p).strength ≠ Strength.weak) := by
  unfold handleSubmitGate
  by_cases hv : (validateMasterPassword p).isValid = false
  · rw [if_pos hv]
    constructor
    · intro h
      exact SubmitOutcome.noConfusion h
    · rintro ⟨h, -⟩
      rw [hv] at h
      exact Bool.noConfusion h
  · rw [if_neg hv]
    by_cases hw : (validateMasterPassword p).strength = Strength.weak
    · rw [if_pos hw]
      constructor
      · intro h
        exact SubmitOutcome.noConfusion h
      · rintro ⟨-, h⟩
        exact absurd hw h
    · rw [if_neg hw]
      constructor
      · intro _
        exact ⟨Bool.not_eq_false _ |>.mp hv, hw⟩
      · intro _
        rfl

/-- C3 counterexample: the eight-character all-lowercase secret abcdefgh is
scored weak, validateMasterPassword accepts it with only a flag message, yet
the submit handler blocks it, refuting the claim that a weak secret of length
at least 8 is never blocked from use. -/
theorem c3_weak_blocked_counterexample :
    (validateMasterPassword "abcdefgh").isValid = true ∧
    (validateMasterPassword "abcdefgh").strength = Strength.weak ∧
    handleSubmitGate "abcdefgh" =
      SubmitOutcome.blocked "Consider using a stronger master password" := by
  refine ⟨?_, ?_, ?_⟩ <;> decide

/-- C3 amended: secrets shorter than 8 are the exact set rejected by
validateMasterPassword, and the client submit gate lets a secret through
exactly when it is at least 8 characters long and its scored strength is not
weak — so weak-scored secrets of any length are blocked at submission, not
merely flagged. -/
theorem c3_strength_policy_amended (p : String) :
    ((validateMasterPassword p).isValid = true ↔ 8 ≤ p.length) ∧
    (handleSubmitGate p = SubmitOutcome.proceed ↔
      (8 ≤ p.length ∧ (validateMasterPassword p).strength ≠ Strength.weak)) := by
  refine ⟨validateMasterPassword_isValid_iff p, ?_⟩
  rw [handleSubmitGate_proceed_iff p, validateMasterPassword_isValid_iff p]

/-! ## Claim theorems: owner isolation and the master-secret gate -/

/-- C4: for distinct owners A and B and a record id whose stored document
belongs to B, the owner-scoped get, update and delete each answer not-found
and leave the store unchanged (update under any body; its not-found answer is
stated for a body whose title is truthy, since a falsy title is rejected
earlier with the validation error, also without touching the store). -/
theorem c4_owner_isolation (st : VaultStore) (A B id : String) (it : StoredItem)
    (body : UpdateBody) (hAB : A ≠ B) (hid : st id = some it) (hB : it.userId = B) :
    vaultGet st A id = VaultGetResult.notFound ∧
    vaultDelete st A id = (VaultDeleteResult.notFound, st) ∧
    (vaultPut st A id body).2 = st ∧
    (jsOrEmpty body.title ≠ "" → (vaultPut st A id body).1 = VaultPutResult.notFound) := by
  have hfind : findOneItem st id A = none := by
    unfold findOneItem
    rw [hid]
    show (if it.userId = A then some it else none) = none
    rw [if_neg]
    intro h
    exact hAB (h ▸ hB)
  refine ⟨?_, ?_, ?_, ?_⟩
  · unfold vaultGet
    rw [hfind]
  · unfold vaultDelete
    rw [hfind]
  · unfold vaultPut
    by_cases ht : jsOrEmpty body.title = ""
    · rw [if_pos ht]
    · rw [if_neg ht, hfind]
  · intro ht
    unfold vaultPut
    rw [if_neg ht, hfind]

/-- Concrete stored item owned by ownerB, for the C4 witness. -/
def witnessItem : StoredItem :=
  { userId := "ownerB", title := "ct", username := "", password := "", url := "", notes := "" }

/-- Concrete one-record store, for the C4 witness. -/
def witnessStore : VaultStore := fun j => if j = "rec1" then some witnessItem else none

/-- Concrete update body with a truthy title, for the C4 witness. -/
def witnessBody : UpdateBody :=
  { title := some "ct2", username := none, password := none, url := none, notes := none }

/-- C4 witness: the isolation theorem applied at the concrete store, with
ownerA probing the record of ownerB. -/
theorem c4_owner_isolation_witness :
    vaultGet witnessStore "ownerA" "rec1" = VaultGetResult.notFound ∧
    vaultDelete witnessStore "ownerA" "rec1" = (VaultDeleteResult.notFound, witnessStore) ∧
    (vaultPut witnessStore "ownerA" "rec1" witnessBody).2 = witnessStore ∧
    (vaultPut witnessStore "ownerA" "rec1" witnessBody).1 = VaultPutResult.notFound := by
  have h := c4_owner_isolation witnessStore "ownerA" "ownerB" "rec1" witnessItem witnessBody
    (by decide) (by simp [witnessStore]) rfl
  exact ⟨h.1, h.2.1, h.2.2.1, h.2.2.2 (by decide)⟩

lemma masterPasswordPost_set (Bc : BcryptModel) (u : UserState) (s : String)
    (hu : u.masterPasswordHash = none) (hs : s ≠ "") :
    masterPasswordPost Bc u s MPAction.set =
      (MPPostResult.setOk, { masterPasswordHash := some (Bc.hash s) }) := by
  unfold masterPasswordPost
  rw [if_neg hs, hu]

lemma bcrypt_compare_eq_decide (Bc : BcryptModel) (p s : String) :
    Bc.compare p (Bc.hash s) = decide (p = s) := by
  cases hb : Bc.compare p (Bc.hash s) with
  | false =>
    have hne : ¬ p = s := by
      intro he
      rw [(Bc.compare_hash p s).mpr he] at hb
      exact Bool.noConfusion hb
    simp [hne]
  | true =>
    have he : p = s := (Bc.compare_hash p s).mp hb
    simp [he]

/-- C5: from a state with no verifier, setting the secret s succeeds; a second
set call with any non-empty secret fails with the already-set error and leaves
the stored verifier unchanged; and verify answers true for exactly the secret
s and false for every other non-empty secret, without error. -/
theorem c5_verifier_set_once_and_verify (Bc : BcryptModel) (u : UserState)
    (s s2 t : String) (hu : u.masterPasswordHash = none)
    (hs : s ≠ "") (hs2 : s2 ≠ "") (ht : t ≠ "") :
    (masterPasswordPost Bc u s MPAction.set).1 = MPPostResult.setOk ∧
    masterPasswordPost Bc (masterPasswordPost Bc u s MPAction.set).2 s2 MPAction.set =
      (MPPostResult.badRequest "Master password already set",
       (masterPasswordPost Bc u s MPAction.set).2) ∧
    masterPasswordPost Bc (masterPasswordPost Bc u s MPAction.set).2 t MPAction.verify =
      (MPPostResult.verifyResult (decide (t = s)),
       (masterPasswordPost Bc u s MPAction.set).2) := by
  rw [masterPasswordPost_set Bc u s hu hs]
  refine ⟨rfl, ?_, ?_⟩
  · unfold masterPasswordPost
    rw [if_neg hs2]
  · unfold masterPasswordPost
    rw [if_neg ht]
    show (MPPostResult.verifyResult (Bc.compare t (Bc.hash s)),
          ({ masterPasswordHash := some (Bc.hash s) } : UserState)) =
      (MPPostResult.verifyResult (decide (t = s)),
       ({ masterPasswordHash := some (Bc.hash s) } : UserState))
    rw [bcrypt_compare_eq_decide Bc t s]

/-- C5 witness: the theorem applied at the concrete bcrypt instance, an empty
initial state, secret goodpw, second set attempt otherpw, verify probe
wrongpw; the verify answer evaluates to false. -/
theorem c5_verifier_set_once_and_verify_witness :
    (masterPasswordPost toyBcrypt ⟨none⟩ "goodpw" MPAction.set).1 = MPPostResult.setOk ∧
    masterPasswordPost toyBcrypt (masterPasswordPost toyBcrypt ⟨none⟩ "goodpw" MPAction.set).2
        "otherpw" MPAction.set =
      (MPPostResult.badRequest "Master password already set",
       (masterPasswordPost toyBcrypt ⟨none⟩ "goodpw" MPAction.set).2) ∧
    masterPasswordPost toyBcrypt (masterPasswordPost toyBcrypt ⟨none⟩ "goodpw" MPAction.set).2
        "wrongpw" MPAction.verify =
      (MPPostResult.verifyResult (decide (("wrongpw" : String) = "goodpw")),
       (masterPasswordPost toyBcrypt ⟨none⟩ "goodpw" MPAction.set).2) :=
  c5_verifier_set_once_and_verify toyBcrypt ⟨none⟩ "goodpw" "otherpw" "wrongpw"
    rfl (by decide) (by decide) (by decide)

/-- C6: with a verifier stored for secret s, a change request whose non-empty
old secret differs from s fails with the wrong-old-password error and leaves
the state unchanged, so a verify with s still answers true. -/
theorem c6_rekey_wrong_old_secret (Bc : BcryptModel) (u : UserState)
    (s oldS newS : String) (hu : u.masterPasswordHash = some (Bc.hash s))
    (hold : oldS ≠ "") (hnew : newS ≠ "") (hne : oldS ≠ s) (hs : s ≠ "") :
    masterPasswordPut Bc u oldS newS = (MPPutResult.wrongOld, u) ∧
    (masterPasswordPost Bc u s MPAction.verify).1 = MPPostResult.verifyResult true := by
  constructor
  · unfold masterPasswordPut
    rw [if_neg (fun h => h.elim hold hnew), hu]
    show (if Bc.compare oldS (Bc.hash s) = true
          then (MPPutResult.changed, ({ masterPasswordHash := some (Bc.hash newS) } : UserState))
          else (MPPutResult.wrongOld, u)) = (MPPutResult.wrongOld, u)
    rw [if_neg]
    intro hc
    exact hne ((Bc.compare_hash oldS s).mp hc)
  · unfold masterPasswordPost
    rw [if_neg hs, hu]
    show MPPostResult.verifyResult (Bc.compare s (Bc.hash s)) = MPPostResult.verifyResult true
    rw [(Bc.compare_hash s s).mpr rfl]

/-- C6 witness: the theorem applied at the concrete bcrypt instance with
stored secret goodpw and wrong old secret badpw. -/
theorem c6_rekey_wrong_old_secret_witness :
    masterPasswordPut toyBcrypt ⟨some (toyBcrypt.hash "goodpw")⟩ "badpw" "nextpw" =
      (MPPutResult.wrongOld, ⟨some (toyBcrypt.hash "goodpw")⟩) ∧
    (masterPasswordPost toyBcrypt ⟨some (toyBcrypt.hash "goodpw")⟩ "goodpw"
        MPAction.verify).1 = MPPostResult.verifyResult true :=
  c6_rekey_wrong_old_secret toyBcrypt ⟨some (toyBcrypt.hash "goodpw")⟩ "goodpw"
    "badpw" "nextpw" rfl (by decide) (by decide) (by decide) (by decide)

/-- C7: a successful change of the master password over the combined database
state replaces the stored verifier hash with a hash of the new secret and
leaves every document of the vault-item collection exactly as it was. -/
theorem c7_rekey_leaves_vault_untouched (Bc : BcryptModel) (u : UserState)
    (vs : VaultStore) (s newS : String) (hu : u.masterPasswordHash = some (Bc.hash s))
    (hs : s ≠ "") (hnew : newS ≠ "") :
    (masterPasswordPutSys Bc u vs s newS).1 = MPPutResult.changed ∧
    (masterPasswordPutSys Bc u vs s newS).2.1 =
      { masterPasswordHash := some (Bc.hash newS) } ∧
    (masterPasswordPutSys Bc u vs s newS).2.2 = vs := by
  have hput : masterPasswordPut Bc u s newS =
      (MPPutResult.changed, { masterPasswordHash := some (Bc.hash newS) }) := by
    unfold masterPasswordPut
    rw [if_neg (fun h => h.elim hs hnew), hu]
    show (if Bc.compare s (Bc.hash s) = true
          then (MPPutResult.changed, ({ masterPasswordHash := some (Bc.hash newS) } : UserState))
          else (MPPutResult.wrongOld, u)) =
      (MPPutResult.changed, ({ masterPasswordHash := some (Bc.hash newS) } : UserState))
    rw [if_pos ((Bc.compare_hash s s).mpr rfl)]
  unfold masterPasswordPutSys
  rw [hput]
  exact ⟨rfl, rfl, rfl⟩

/-- C7 witness: the theorem applied at the concrete bcrypt instance, the
concrete one-record store, stored secret goodpw and new secret nextpw. -/
theorem c7_rekey_leaves_vault_untouched_witness :
    (masterPasswordPutSys toyBcrypt ⟨some (toyBcrypt.hash "goodpw")⟩ witnessStore
        "goodpw" "nextpw").1 = MPPutResult.changed ∧
    (masterPasswordPutSys toyBcrypt ⟨some (toyBcrypt.hash "goodpw")⟩ witnessStore
        "goodpw" "nextpw").2.1 = { masterPasswordHash := some (toyBcrypt.hash "nextpw") } ∧
    (masterPasswordPutSys toyBcrypt ⟨some (toyBcrypt.hash "goodpw")⟩ witnessStore
        "goodpw" "nextpw").2.2 = witnessStore :=
  c7_rekey_leaves_vault_untouched toyBcrypt ⟨some (toyBcrypt.hash "goodpw")⟩
    witnessStore "goodpw" "nextpw" rfl (by decide) (by decide)

/-! ## Claim theorems: import parser -/

/-- An array value is truthy: JavaScript arrays, empty or not, are truthy. -/
lemma truthy_of_isArray (v : JSVal) (h : isArray v = true) : truthy v = true := by
  cases v <;> simp_all [isArray, truthy]

/-- C9 counterexample input: a JSON object whose version tag is present but is
the empty string and whose items field is an array. -/
def c9cex : JSVal := JSVal.obj [("version", JSVal.str ""), ("items", JSVal.arr [])]

/-- C9 counterexample: on this input the version tag is present and the items
field is an array, yet the parser fails with the malformed-bundle error —
refuting the claim that presence of the version tag together with an array
items field suffices for acceptance. -/
theorem c9_present_version_rejected_counterexample :
    member c9cex "version" = AccessResult.val (JSVal.str "") ∧
    member c9cex "items" = AccessResult.val (JSVal.arr []) ∧
    isArray (JSVal.arr []) = true ∧
    parseImportedVault (some c9cex) = ImportParseResult.malformed :=
  ⟨rfl, rfl, rfl, rfl⟩

/-- C9 amended: the parser returns the parsed data, unchanged, exactly when
the parsed JSON value has a truthy (not merely present) version member and an
items member that is an array; on every other input, including unparseable
ones, it fails with the malformed-bundle error. -/
theorem c9_import_parse_amended (p : Option JSVal) :
    parseImportedVault p =
      match p with
      | none => ImportParseResult.malformed
      | some d =>
        if importAccepted d then ImportParseResult.bundle d
        else ImportParseResult.malformed := by
  cases p with
  | none => rfl
  | some d =>
    show (match member d "version" with
          | AccessResult.threw => ImportParseResult.malformed
          | AccessResult.undef => ImportParseResult.malformed
          | AccessResult.val ver =>
            if truthy ver = false then ImportParseResult.malformed
            else
              match member d "items" with
              | AccessResult.threw => ImportParseResult.malformed
              | AccessResult.undef => ImportParseResult.malformed
              | AccessResult.val items =>
                if truthy items = false then ImportParseResult.malformed
                else if isArray items then ImportParseResult.bundle d
                else ImportParseResult.malformed) =
      if ((match member d "version" with
           | AccessResult.val ver => truthy ver
           | _ => false) &&
          (match member d "items" with
           | AccessResult.val items => isArray items
           | _ => false)) = true
      then ImportParseResult.bundle d else ImportParseResult.malformed
    cases hv : member d "version" with
    | threw => simp
    | undef => simp
    | val ver =>
      by_cases htv : truthy ver = false
      · simp [htv]
      · have htv' : truthy ver = true := by
          revert htv
          cases truthy ver <;> simp
        cases hi : member d "items" with
        | threw => simp [htv']
        | undef => simp [htv']
        | val items =>
          by_cases ha : isArray items = true
          · simp [htv', ha, truthy_of_isArray items ha]
          · have hna : isArray items = false := by
              revert ha
              cases isArray items <;> simp
            by_cases hti : truthy items = false
            · simp [htv', hti, hna]
            · simp [htv', hti, hna]
